import Mathlib

set_option linter.unusedVariables false

/-!
Verification of the port-daddy coordination daemon against its
natural-language specification.

The development shallowly embeds the relevant parts of the source:

* `src/server.js` — the port-assignment service: validation helpers,
  the `port_assignments` table (modelled as a list of rows; the SQLite
  `port INTEGER PRIMARY KEY` makes inserts on a colliding port fail,
  which the model reflects by the code paths that guarantee the port is
  absent before inserting), the `/ports/request`, `/ports/release`,
  `/ports/cleanup` handlers, `findAvailablePort`, `assignPortWithRetry`,
  `cleanupStale` and `getSystemPorts`.

  The handlers in `server.js` are fully synchronous (better-sqlite3 and
  spawnSync, no `await`), so concurrent HTTP requests are serialized by
  the node event loop; the embedding therefore treats each operation as
  an atomic state transition.  OS facts that a single operation observes
  (process aliveness, LISTENing ports, the parsed `lsof` scan, the
  current time) are packaged in an `Env` value per operation.

* `src/lib/changelog.ts` — the hierarchical changelog: entry rows,
  `getParentIdentity` / `getAncestors` / `getDepth`, `add`,
  `listByPrefix`-backed `listTree`, and `rollup`.  The `identity LIKE ?`
  clause (pattern `q%`) is modelled by `likeMatch`, a full SQLite `LIKE`
  matcher: `%` matches any run, `_` exactly one character, everything
  else ASCII-case-insensitively; `ORDER BY created_at DESC LIMIT ?` is
  modelled by a stable insertion sort on `createdAt` followed by `take`.
-/

namespace PortDaddy

/-- A row of the `port_assignments` table (server.js lines 146-153).
`port` is the primary key. -/
structure Row where
  port : Nat
  project : String
  pid : Nat
  started : Nat
  last_seen : Nat
deriving DecidableEq

/-- The `port_assignments` table, in rowid (insertion) order. -/
abbrev State := List Row

/-- Server configuration (server.js lines 27-41, 138-141).  `selfPid`
models `process.pid`, used when no `x-pid` header is supplied. -/
structure Config where
  rangeStart : Nat
  rangeEnd : Nat
  reserved : List Nat
  selfPid : Nat

/-- The built-in default configuration (server.js lines 30-36). -/
def defaultConfig : Config :=
  { rangeStart := 3100, rangeEnd := 9999, reserved := [8080, 8000, 9876], selfPid := 1 }

/-- The OS facts one synchronous request observes: `alive` models
`isProcessAlive`, `sysListen` models `isPortInUseOnSystem`, `sysPorts`
the port numbers returned by `getSystemPorts()`, and `now` the value of
`Date.now()` during the request. -/
structure Env where
  alive : Nat → Bool
  sysListen : Nat → Bool
  sysPorts : List Nat
  now : Nat

/-! ### Input validation (server.js lines 47-100) -/

/-- Membership in the character class of `PROJECT_NAME_REGEX`,
`/^[a-zA-Z0-9._-]+$/` (server.js line 47). -/
def isAllowedChar (c : Char) : Bool :=
  (decide ('a' ≤ c) && decide (c ≤ 'z')) ||
  (decide ('A' ≤ c) && decide (c ≤ 'Z')) ||
  (decide ('0' ≤ c) && decide (c ≤ '9')) ||
  c == '.' || c == '_' || c == '-'

/-- `PROJECT_NAME_REGEX.test(project)`: the regex `^[a-zA-Z0-9._-]+$`
accepts exactly the non-empty strings all of whose characters lie in the
class. -/
def projectNameRegexTest (project : String) : Bool :=
  !project.isEmpty && project.toList.all isAllowedChar

/-- `validateProjectName` (server.js lines 52-63).  `Except.error e`
models `{valid:false, error:e}`. -/
def validateProjectName (project : String) : Except String Unit :=
  if project.isEmpty then
    .error "project name must be a non-empty string"
  else if project.length > 255 then
    .error "project name too long (max 255 characters)"
  else if !projectNameRegexTest project then
    .error "project name contains invalid characters (use alphanumeric, dash, underscore, dot)"
  else
    .ok ()

/-- `validatePid` (server.js lines 65-74); the input is the parsed
`x-pid` header (absent header modelled as `none`). -/
def validatePid (pidValue : Option Nat) : Except String (Option Nat) :=
  match pidValue with
  | none => .ok none
  | some pid =>
    if pid < 1 || pid > 99999 then .error "PID must be between 1 and 99999"
    else .ok (some pid)

/-- `validatePort` (server.js lines 76-85). -/
def validatePort (portValue : Option Nat) : Except String (Option Nat) :=
  match portValue with
  | none => .ok none
  | some port =>
    if port < 1 || port > 65535 then .error "port must be between 1 and 65535"
    else .ok (some port)

/-- `validatePreferredPort` (server.js lines 87-100). -/
def validatePreferredPort (cfg : Config) (portValue : Option Nat) :
    Except String (Option Nat) :=
  match validatePort portValue with
  | .error e => .error e
  | .ok none => .ok none
  | .ok (some port) =>
    if port < cfg.rangeStart || port > cfg.rangeEnd then
      .error ("preferred port must be in range " ++ toString cfg.rangeStart ++ "-"
        ++ toString cfg.rangeEnd)
    else if cfg.reserved.contains port then
      .error "preferred port is reserved and cannot be assigned"
    else .ok (some port)

/-! ### Prepared statements (server.js lines 159-171) -/

/-- `SELECT * FROM port_assignments WHERE project = ?` followed by
`.get` (first matching row). -/
def getByProject (project : String) (s : State) : Option Row :=
  s.find? (fun r => r.project == project)

/-- `SELECT * FROM port_assignments WHERE port = ?` followed by `.get`. -/
def getByPort (port : Nat) (s : State) : Option Row :=
  s.find? (fun r => r.port == port)

/-- `UPDATE port_assignments SET last_seen = ? WHERE port = ?`. -/
def updateLastSeen (now port : Nat) (s : State) : State :=
  s.map (fun r => if r.port == port then { r with last_seen := now } else r)

/-- `DELETE FROM port_assignments WHERE port = ?`. -/
def deleteByPort (port : Nat) (s : State) : State :=
  s.filter (fun r => r.port != port)

/-- `DELETE FROM port_assignments WHERE project = ?`; returns
`result.changes` (rows deleted) together with the new table. -/
def deleteByProject (project : String) (s : State) : Nat × State :=
  let s2 := s.filter (fun r => r.project != project)
  (s.length - s2.length, s2)

/-! ### Port search (server.js lines 333-344) -/

/-- The first `q` in `[start, start+fuel)` with `f q = true`; models the
`for (let port = PORT_RANGE_START; port <= PORT_RANGE_END; port++)` loop. -/
def findFirst (f : Nat → Bool) : Nat → Nat → Option Nat
  | _, 0 => none
  | start, fuel + 1 => if f start then some start else findFirst f (start + 1) fuel

/-- Whether `findAvailablePort` accepts a candidate port: not a DB row,
not in the (cached) system scan, not reserved, and not currently
LISTENing per the direct `isPortInUseOnSystem` probe. -/
def portCandidateOk (cfg : Config) (env : Env) (s : State) (port : Nat) : Bool :=
  !(s.map (fun r => r.port)).contains port &&
  !env.sysPorts.contains port &&
  !cfg.reserved.contains port &&
  !env.sysListen port

/-- `findAvailablePort` (server.js lines 333-344); `none` models the
`throw new Error('No available ports in range')`. -/
def findAvailablePort (cfg : Config) (env : Env) (s : State) : Option Nat :=
  findFirst (portCandidateOk cfg env s) cfg.rangeStart (cfg.rangeEnd + 1 - cfg.rangeStart)

/-- JS truthiness of the `preferredPort` variable inside
`assignPortWithRetry` (`preferredPort || findAvailablePort()` and
`if (preferredPort)`): `null` and `0` are falsy. -/
def prefTruthy (pref : Option Nat) : Bool :=
  match pref with
  | some p => p != 0
  | none => false

/-- `assignPortWithRetry` (server.js lines 352-388) with fuel
`maxRetries = 3`.  Returns the handler-visible outcome (`.ok port`, or
`.error msg` for the two `throw`s) together with the table, since stale
deletions performed by failed attempts persist. -/
def assignPortWithRetry (cfg : Config) (env : Env) (project : String) (pid : Nat) :
    Option Nat → Nat → State → Except String Nat × State
  | _, 0, s => (.error "Failed to assign port after retries", s)
  | pref, fuel + 1, s =>
    let port? := if prefTruthy pref then pref else findAvailablePort cfg env s
    match port? with
    | none => (.error "No available ports in range", s)
    | some port =>
      match getByPort port s with
      | some ex =>
        if env.alive ex.pid then
          if prefTruthy pref then
            match findAvailablePort cfg env s with
            | none => (.error "No available ports in range", s)
            | some _ => assignPortWithRetry cfg env project pid none fuel s
          else assignPortWithRetry cfg env project pid none fuel s
        else
          -- stale row on this port: delete it, then the system probe
          let s2 := deleteByPort port s
          if env.sysListen port then
            if prefTruthy pref then
              match findAvailablePort cfg env s2 with
              | none => (.error "No available ports in range", s2)
              | some _ => assignPortWithRetry cfg env project pid none fuel s2
            else assignPortWithRetry cfg env project pid none fuel s2
          else
            (.ok port, s2 ++ [⟨port, project, pid, env.now, env.now⟩])
      | none =>
        if env.sysListen port then
          if prefTruthy pref then
            match findAvailablePort cfg env s with
            | none => (.error "No available ports in range", s)
            | some _ => assignPortWithRetry cfg env project pid none fuel s
          else assignPortWithRetry cfg env project pid none fuel s
        else
          (.ok port, s ++ [⟨port, project, pid, env.now, env.now⟩])

/-! ### The `/ports/request` handler (server.js lines 417-472) -/

/-- The JSON responses of `POST /ports/request`.  In the `ok` case
`existing` is the optional `existing` field of the response body: the
renewal response carries `existing: true`; the fresh-assignment response
(line 465) has no `existing` field at all, modelled as `none`. -/
inductive ClaimResult where
  | badRequest (error : String)
  | ok (port : Nat) (message : String) (existing : Option Bool)
  | serverError (error : String)
deriving DecidableEq

/-- The `existing` field of a claim response, when present. -/
def ClaimResult.existingField : ClaimResult → Option Bool
  | .ok _ _ e => e
  | _ => none

/-- Whether a claim response is a 400 rejection. -/
def ClaimResult.isBad : ClaimResult → Bool
  | .badRequest _ => true
  | _ => false

/-- The preferred-port system probe of the request handler (server.js
lines 455-459): a validated preferred port is dropped when
`isPortInUseOnSystem` reports it LISTENing. -/
def portToTryOf (env : Env) (prefOpt : Option Nat) : Option Nat :=
  match prefOpt with
  | some p => if env.sysListen p then none else some p
  | none => none

/-- The tail of the request handler after validation and the
existing-assignment check: preferred-port system probe (lines 455-459)
followed by `assignPortWithRetry` and response shaping (lines 461-471). -/
def portsAssignPhase (cfg : Config) (env : Env) (project : String) (requestingPid : Nat)
    (prefOpt : Option Nat) (s : State) : ClaimResult × State :=
  match assignPortWithRetry cfg env project requestingPid (portToTryOf env prefOpt) 3 s with
  | (.ok port, s2) =>
    (.ok port
      (if prefOpt == some port then "assigned preferred port" else "port assigned successfully")
      none, s2)
  | (.error e, s2) => (.serverError e, s2)

/-- `POST /ports/request` (server.js lines 417-472).  `preferred` is the
`preferred` body field, `xpid` the parsed `x-pid` header. -/
def portsRequest (cfg : Config) (env : Env) (project : String) (preferred : Option Nat)
    (xpid : Option Nat) (s : State) : ClaimResult × State :=
  match validateProjectName project with
  | .error e => (.badRequest e, s)
  | .ok () =>
    match validatePid xpid with
    | .error e => (.badRequest e, s)
    | .ok pidOpt =>
      let requestingPid := pidOpt.getD cfg.selfPid
      match validatePreferredPort cfg preferred with
      | .error e => (.badRequest e, s)
      | .ok prefOpt =>
        match getByProject project s with
        | some ex =>
          if env.alive ex.pid then
            (.ok ex.port "existing assignment renewed" (some true),
              updateLastSeen env.now ex.port s)
          else
            portsAssignPhase cfg env project requestingPid prefOpt (deleteByPort ex.port s)
        | none => portsAssignPhase cfg env project requestingPid prefOpt s

/-! ### The `/ports/release` handler (server.js lines 474-509) -/

/-- The JSON responses of `DELETE /ports/release`: a 400 rejection or a
200 `{success: true, message}` body. -/
inductive ReleaseResult where
  | badRequest (error : String)
  | ok (message : String)
deriving DecidableEq

/-- Whether a release response is a 400 rejection. -/
def ReleaseResult.isBad : ReleaseResult → Bool
  | .badRequest _ => true
  | _ => false

/-- `DELETE /ports/release` (server.js lines 474-509).  The `port`
branch is taken whenever the body carries a `port` field. -/
def portsRelease (cfg : Config) (port : Option Nat) (project : Option String)
    (s : State) : ReleaseResult × State :=
  match port with
  | some portValue =>
    match validatePort (some portValue) with
    | .error e => (.badRequest e, s)
    | .ok v =>
      -- `validatePort (some x)` only succeeds as `.ok (some x)`
      let p := v.getD portValue
      (.ok ("released port " ++ toString p), deleteByPort p s)
  | none =>
    match project with
    | some proj =>
      match validateProjectName proj with
      | .error e => (.badRequest e, s)
      | .ok () =>
        let r := deleteByProject proj s
        (.ok ("released " ++ toString r.1 ++ " port(s) for project " ++ proj), r.2)
    | none => (.badRequest "port or project required", s)

/-! ### Cleanup (server.js lines 316-331) -/

/-- The loop body of `cleanupStale`: iterate over the snapshot
`entries`, deleting every row whose pid is not alive and collecting the
freed `(port, project)` pairs. -/
def cleanupStaleLoop (env : Env) : List Row → State → List (Nat × String) × State
  | [], s => ([], s)
  | e :: rest, s =>
    if env.alive e.pid then cleanupStaleLoop env rest s
    else
      let r := cleanupStaleLoop env rest (deleteByPort e.port s)
      ((e.port, e.project) :: r.1, r.2)

/-- `cleanupStale` (server.js lines 316-331), also the body of the
periodic sweep installed at line 569 and of `POST /ports/cleanup`. -/
def cleanupStale (env : Env) (s : State) : List (Nat × String) × State :=
  cleanupStaleLoop env s s

/-! ### System-port scan cache (server.js lines 251-302) -/

/-- One parsed line of `lsof` output (server.js lines 279-286). -/
structure PortInfo where
  port : Nat
  pid : Nat
  command : String
  user : String
deriving DecidableEq

/-- The module-level `systemPortsCache` (server.js line 252). -/
structure SysCache where
  data : Option (List PortInfo)
  timestamp : Nat
deriving DecidableEq

/-- `SYSTEM_PORTS_CACHE_TTL` (server.js line 253). -/
def SYSTEM_PORTS_CACHE_TTL : Nat := 2000

/-- The first-occurrence dedup by port (server.js lines 289-294). -/
def dedupByPort : List PortInfo → List Nat → List PortInfo
  | [], _ => []
  | p :: rest, seen =>
    if seen.contains p.port then dedupByPort rest seen
    else p :: dedupByPort rest (p.port :: seen)

/-- Stable insertion into a list sorted ascending by port
(`.sort((a, b) => a.port - b.port)`, server.js line 294). -/
def insertByPortAsc (p : PortInfo) : List PortInfo → List PortInfo
  | [] => [p]
  | x :: xs => if x.port ≤ p.port then x :: insertByPortAsc p xs else p :: x :: xs

/-- Sort ascending by port. -/
def sortByPortAsc (l : List PortInfo) : List PortInfo :=
  l.foldr insertByPortAsc []

/-- `getSystemPorts` (server.js lines 255-302).  `scan` is the parsed
`lsof` result of this call — `none` when the probe failed.  Returns the
port list and the updated cache. -/
def getSystemPorts (cache : SysCache) (now : Nat) (scan : Option (List PortInfo)) :
    List PortInfo × SysCache :=
  match cache.data with
  | some d =>
    if now - cache.timestamp < SYSTEM_PORTS_CACHE_TTL then (d, cache)
    else
      match scan with
      | none => (d, cache)
      | some l =>
        let d2 := sortByPortAsc (dedupByPort l [])
        (d2, ⟨some d2, now⟩)
  | none =>
    match scan with
    | none => ([], cache)
    | some l =>
      let d2 := sortByPortAsc (dedupByPort l [])
      (d2, ⟨some d2, now⟩)

/-! ### Operation sequences over the port table -/

/-- One externally triggered mutation of the `port_assignments` table:
a claim, a release (by port or by project), or a cleanup sweep. -/
inductive Op where
  | claim (project : String) (preferred : Option Nat) (xpid : Option Nat) (env : Env)
  | release (port : Option Nat) (project : Option String)
  | cleanup (env : Env)

/-- The table produced by running one operation. -/
def applyOp (cfg : Config) (s : State) : Op → State
  | .claim project preferred xpid env => (portsRequest cfg env project preferred xpid s).2
  | .release port project => (portsRelease cfg port project s).2
  | .cleanup env => (cleanupStale env s).2

/-- The uniqueness invariant of the services table: no two rows share a
port and no two rows share a project. -/
def Inv (s : State) : Prop :=
  (s.map (fun r => r.port)).Nodup ∧ (s.map (fun r => r.project)).Nodup

end PortDaddy

namespace Changelog

/-! ### Hierarchy helpers (src/lib/changelog.ts lines 111-145)

Identities are modelled as `List Char`; the source operates on JS
strings with `lastIndexOf`, `substring`, `split` and `startsWith`. -/

/-- The index of the last `':'` in the list, as `identity.lastIndexOf(':')`
(with `none` for the JS result `-1`). -/
def lastIndexOfColon : List Char → Option Nat
  | [] => none
  | c :: rest =>
    match lastIndexOfColon rest with
    | some i => some (i + 1)
    | none => if c = ':' then some 0 else none

theorem lastIndexOfColon_lt_length {l : List Char} {i : Nat}
    (h : lastIndexOfColon l = some i) : i < l.length := by
  induction l generalizing i with
  | nil => simp [lastIndexOfColon] at h
  | cons c rest ih =>
    simp only [lastIndexOfColon] at h
    cases hr : lastIndexOfColon rest with
    | some j =>
      rw [hr] at h
      cases h
      have := ih hr
      simp only [List.length_cons]
      omega
    | none =>
      rw [hr] at h
      by_cases hc : c = ':'
      · simp [hc] at h
        cases h
        simp
      · simp [hc] at h

/-- `getParentIdentity` (changelog.ts lines 117-121):
`identity.substring(0, identity.lastIndexOf(':'))`, or `null` when
there is no colon. -/
def getParentIdentity (identity : List Char) : Option (List Char) :=
  match lastIndexOfColon identity with
  | none => none
  | some i => some (identity.take i)

theorem getParentIdentity_length_lt {l t : List Char}
    (h : getParentIdentity l = some t) : t.length < l.length := by
  unfold getParentIdentity at h
  cases hl : lastIndexOfColon l with
  | none => rw [hl] at h; cases h
  | some i =>
    rw [hl] at h
    cases h
    have hi := lastIndexOfColon_lt_length hl
    simp only [List.length_take]
    omega

/-- The `while (current)` loop of `getAncestors` (changelog.ts lines
127-135), from a non-null current value.  The JS loop also stops on an
empty string, since `""` is falsy. -/
def ancestorChain (s : List Char) : List (List Char) :=
  match h : getParentIdentity s with
  | none => [s]
  | some t => if t.isEmpty then [s] else s :: ancestorChain t
termination_by s.length
decreasing_by exact getParentIdentity_length_lt h

/-- `getAncestors` (changelog.ts lines 127-135). -/
def getAncestors (identity : List Char) : List (List Char) :=
  match getParentIdentity identity with
  | none => []
  | some t => if t.isEmpty then [] else ancestorChain t

/-- `getDepth` (changelog.ts lines 143-145): `identity.split(':').length`,
which equals the number of colons plus one. -/
def getDepth (identity : List Char) : Nat :=
  identity.count ':' + 1

/-! ### Entries and the store (changelog.ts lines 17-95, 147-178) -/

/-- A row of the `changelog` table.  The `type` column is called
`entryType` here. -/
structure CEntry where
  id : Nat
  identity : List Char
  sessionId : Option String
  agentId : Option String
  entryType : String
  summary : String
  description : Option String
  metadata : Option String
  createdAt : Nat
deriving DecidableEq

/-- The `changelog` table plus the AUTOINCREMENT counter. -/
structure ChangelogStore where
  rows : List CEntry
  nextId : Nat
deriving DecidableEq

/-- The options object of `changelog.add` (changelog.ts lines 151-159);
absent fields are `none` (the source turns falsy fields into NULL with
`|| null`). -/
structure AddOptions where
  identity : List Char
  summary : String
  entryType : Option String
  description : Option String
  sessionId : Option String
  agentId : Option String
  metadata : Option String

/-- The return value of `changelog.add` (changelog.ts lines 172-177). -/
structure AddResult where
  success : Bool
  id : Nat
  identity : List Char
  ancestors : List (List Char)
deriving DecidableEq

/-- `changelog.add` (changelog.ts lines 151-178): inserts exactly one
row (id `lastInsertRowid`, type defaulting to `'feature'`) and reports
the computed ancestors. -/
def addEntry (store : ChangelogStore) (opts : AddOptions) (now : Nat) :
    AddResult × ChangelogStore :=
  let row : CEntry :=
    { id := store.nextId, identity := opts.identity, sessionId := opts.sessionId,
      agentId := opts.agentId, entryType := opts.entryType.getD "feature",
      summary := opts.summary, description := opts.description,
      metadata := opts.metadata, createdAt := now }
  ({ success := true, id := store.nextId, identity := opts.identity,
     ancestors := getAncestors opts.identity },
   { rows := store.rows ++ [row], nextId := store.nextId + 1 })

/-! ### Prefix queries (changelog.ts lines 76-78, 208-216) -/

/-- ASCII lower-casing, the case folding SQLite `LIKE` applies. -/
def asciiLower (c : Char) : Char :=
  if decide ('A' ≤ c) && decide (c ≤ 'Z') then Char.ofNat (c.toNat + 32) else c

/-- SQLite `LIKE` matching of a pattern against a text: `%` matches any
run of zero or more characters, `_` matches exactly one character, and
any other pattern character matches ASCII-case-insensitively.  The
recursion is structural on the pattern; the `%` case tries every suffix
of the text. -/
def likeMatch : List Char → List Char → Bool
  | [], s => s.isEmpty
  | p :: ps, s =>
    if p = '%' then s.tails.any (likeMatch ps)
    else
      match s with
      | [] => false
      | c :: s2 =>
        (if p = '_' then true else asciiLower p == asciiLower c) && likeMatch ps s2

/-- The `WHERE identity LIKE ?` clause applied to the pattern `q%`
(changelog.ts lines 76-78, 209, 274, 317): full SQLite `LIKE` semantics,
wildcards in `q` included. -/
def likePrefixMatch (q ident : List Char) : Bool :=
  likeMatch (q ++ ['%']) ident

/-- Stable insertion into a list sorted by `createdAt` descending,
modelling `ORDER BY created_at DESC` (tie order is unspecified in
SQLite; the model keeps earlier rows first). -/
def insertByCreatedDesc (e : CEntry) : List CEntry → List CEntry
  | [] => [e]
  | x :: xs => if e.createdAt ≤ x.createdAt then x :: insertByCreatedDesc e xs
               else e :: x :: xs

/-- Sort by `createdAt` descending. -/
def sortByCreatedDesc (l : List CEntry) : List CEntry :=
  l.foldr insertByCreatedDesc []

/-- The `listByPrefix` prepared statement (changelog.ts lines 76-78):
`SELECT * FROM changelog WHERE identity LIKE ? ORDER BY created_at DESC
LIMIT ?`, applied to the pattern `q%`. -/
def listByPrefix (store : ChangelogStore) (q : List Char) (limit : Nat) : List CEntry :=
  (sortByCreatedDesc (store.rows.filter (fun r => likePrefixMatch q r.identity))).take limit

/-- The result shape of `list` / `listTree` (changelog.ts lines 208-216). -/
structure ListResult where
  success : Bool
  identity : List Char
  entries : List CEntry
  count : Nat
deriving DecidableEq

/-- `changelog.listTree` (changelog.ts lines 208-216); the source
default for `limit` is 100. -/
def listTree (store : ChangelogStore) (identity : List Char) (limit : Nat) : ListResult :=
  let es := listByPrefix store identity limit
  { success := true, identity := identity, entries := es, count := es.length }

/-! ### Rollup (changelog.ts lines 273-300) -/

/-- One step of building the `byIdentity` map (changelog.ts lines
278-283); a JS `Map` keeps first-insertion key order and `set` appends
to the group. -/
def insertGroup : List (List Char × List CEntry) → CEntry → List (List Char × List CEntry)
  | [], e => [(e.identity, [e])]
  | (k, es) :: rest, e =>
    if k = e.identity then (k, es ++ [e]) :: rest
    else (k, es) :: insertGroup rest e

/-- The `byIdentity` map grouping entries by identity. -/
def groupByIdentity (es : List CEntry) : List (List Char × List CEntry) :=
  es.foldl insertGroup []

/-- `byIdentity.get(identity) || []` (changelog.ts line 287). -/
def lookupGroup (g : List (List Char × List CEntry)) (k : List Char) : List CEntry :=
  match g.find? (fun kv => kv.1 == k) with
  | some kv => kv.2
  | none => []

/-- The largest `getDepth` over the map's keys; bounds the `buildNode`
recursion, whose children always sit one level deeper and always come
from the key set. -/
def maxKeyDepth (g : List (List Char × List CEntry)) : Nat :=
  (g.map (fun kv => getDepth kv.1)).foldr max 0

theorem mem_le_foldr_max {l : List Nat} {x : Nat} (h : x ∈ l) :
    x ≤ l.foldr max 0 := by
  induction l with
  | nil => cases h
  | cons y ys ih =>
    rcases List.mem_cons.mp h with rfl | hx
    · exact le_max_left _ _
    · exact le_trans (ih hx) (le_max_right _ _)

/-- The `childIdentities` filter (changelog.ts lines 288-290):
keys of the map that extend `ident` past a colon and sit exactly one
level deeper.  `startsWith` is case-sensitive in JS. -/
def childKeys (g : List (List Char × List CEntry)) (ident : List Char) : List (List Char) :=
  (g.map Prod.fst).filter
    (fun k => (ident ++ [':']).isPrefixOf k && getDepth k == getDepth ident + 1)

theorem mem_childKeys {g : List (List Char × List CEntry)} {ident k : List Char}
    (h : k ∈ childKeys g ident) :
    k ∈ g.map Prod.fst ∧ getDepth k = getDepth ident + 1 := by
  have h2 := List.mem_filter.mp h
  refine ⟨h2.1, ?_⟩
  have h3 := (Bool.and_eq_true _ _).mp h2.2
  simpa using h3.2

theorem childKeys_depth_le {g : List (List Char × List CEntry)} {ident k : List Char}
    (h : k ∈ childKeys g ident) : getDepth k ≤ maxKeyDepth g := by
  have h1 := (mem_childKeys h).1
  exact mem_le_foldr_max (by
    rcases List.mem_map.mp h1 with ⟨kv, hkv, rfl⟩
    exact List.mem_map.mpr ⟨kv, hkv, rfl⟩)

/-- The tree node returned by `rollup` (changelog.ts lines 41-45). -/
inductive RollupEntry where
  | mk (identity : List Char) (entries : List CEntry) (children : List RollupEntry)

/-- The identity of a rollup node. -/
def RollupEntry.identity : RollupEntry → List Char
  | .mk i _ _ => i

/-- The entries of a rollup node. -/
def RollupEntry.entries : RollupEntry → List CEntry
  | .mk _ e _ => e

/-- The children of a rollup node. -/
def RollupEntry.children : RollupEntry → List RollupEntry
  | .mk _ _ c => c

/-- `buildNode` (changelog.ts lines 286-297): entries of this exact
identity, children recursively built from keys one level deeper.  The
recursion terminates because every child key is a key of the map and
one level deeper than its parent. -/
def buildNode (g : List (List Char × List CEntry)) (ident : List Char) : RollupEntry :=
  .mk ident (lookupGroup g ident)
    ((childKeys g ident).attach.map (fun c => buildNode g c.1))
termination_by (maxKeyDepth g + 1) - getDepth ident
decreasing_by
  have h1 := (mem_childKeys c.2).2
  have h2 := childKeys_depth_le c.2
  omega

/-- `changelog.rollup` (changelog.ts lines 273-300): collect the rows
matching `rootIdentity%` (limit 1000), group them by identity, and
build the tree from the root. -/
def rollup (store : ChangelogStore) (root : List Char) : RollupEntry :=
  buildNode (groupByIdentity (listByPrefix store root 1000)) root

end Changelog

namespace PortDaddy

/-! ### Concrete environments used by witnesses and counterexamples -/

/-- An environment in which every pid is alive and no port LISTENs. -/
def envLive : Env := ⟨fun _ => true, fun _ => false, [], 7⟩

/-- An environment in which no pid is alive and no port LISTENs. -/
def envDead : Env := ⟨fun _ => false, fun _ => false, [], 7⟩

/-- An environment in which only pid 42 is alive and no port LISTENs. -/
def envMixed : Env := ⟨fun p => p == 42, fun _ => false, [], 7⟩

/-- Modelled from the spec: the identity validation regex
`^[A-Za-z0-9._-]+(:[A-Za-z0-9._-]+){0,2}$` (spec §6 Validation) — one to
three colon-separated segments, each a non-empty run of the allowed
characters.  This definition follows the spec's words and exists only to
compare the spec's identity shape against the code's
`validateProjectName`. -/
def specIdentityRegexAccepts (identity : String) : Bool :=
  let segs := identity.toList.splitOn ':'
  decide (1 ≤ segs.length) && decide (segs.length ≤ 3) &&
    segs.all (fun seg => !seg.isEmpty && seg.all isAllowedChar)

/-! ### Shared lemmas about the request and release handlers -/

theorem validateProjectName_ok_iff (project : String) :
    validateProjectName project = .ok () ↔
      (project ≠ "" ∧ project.length ≤ 255 ∧ ∀ c ∈ project.toList, isAllowedChar c = true) := by
  constructor
  · intro h
    unfold validateProjectName at h
    by_cases h1 : project.isEmpty
    · simp [h1] at h
    · by_cases h2 : project.length > 255
      · simp [h1, h2] at h
      · by_cases h3 : projectNameRegexTest project
        · refine ⟨?_, by omega, ?_⟩
          · intro he
            exact h1 ((String.isEmpty_iff project).mpr he)
          · intro c hc
            have h4 := (Bool.and_eq_true _ _).mp (by unfold projectNameRegexTest at h3; exact h3)
            exact List.all_eq_true.mp h4.2 c hc
        · simp [h1, h2, h3] at h
  · rintro ⟨hne, hlen, hall⟩
    have h1 : ¬ project.isEmpty = true := fun hb => hne ((String.isEmpty_iff project).mp hb)
    have h3 : projectNameRegexTest project = true := by
      unfold projectNameRegexTest
      exact (Bool.and_eq_true _ _).mpr
        ⟨by simp [h1], List.all_eq_true.mpr hall⟩
    unfold validateProjectName
    simp [h1, h3]
    omega

theorem portsAssignPhase_fst_not_bad (cfg : Config) (env : Env) (project : String)
    (pid : Nat) (pref : Option Nat) (s : State) :
    ((portsAssignPhase cfg env project pid pref s).1).isBad = false := by
  unfold portsAssignPhase
  rcases h : assignPortWithRetry cfg env project pid (portToTryOf env pref) 3 s with ⟨r, s2⟩
  cases r <;> simp [ClaimResult.isBad]

theorem portsAssignPhase_fst_existingField (cfg : Config) (env : Env) (project : String)
    (pid : Nat) (pref : Option Nat) (s : State) :
    ((portsAssignPhase cfg env project pid pref s).1).existingField = none := by
  unfold portsAssignPhase
  rcases h : assignPortWithRetry cfg env project pid (portToTryOf env pref) 3 s with ⟨r, s2⟩
  cases r <;> simp [ClaimResult.existingField]

theorem portsAssignPhase_snd (cfg : Config) (env : Env) (project : String)
    (pid : Nat) (pref : Option Nat) (s : State) :
    (portsAssignPhase cfg env project pid pref s).2 =
      (assignPortWithRetry cfg env project pid (portToTryOf env pref) 3 s).2 := by
  unfold portsAssignPhase
  rcases h : assignPortWithRetry cfg env project pid (portToTryOf env pref) 3 s with ⟨r, s2⟩
  cases r <;> simp

/-! ### Claim C1 -/

/-- Claim C1 counterexample: the two-segment identity `"a:b"` matches
the spec's identity shape `project[:stack[:context]]` (each segment in
`[A-Za-z0-9._-]+`), yet a claim request carrying it is rejected with
status 400, because `PROJECT_NAME_REGEX` in server.js contains no colon. -/
theorem colon_identity_rejected_counterexample :
    specIdentityRegexAccepts "a:b" = true
    ∧ (portsRequest defaultConfig envLive "a:b" none none []).1 =
        .badRequest
          "project name contains invalid characters (use alphanumeric, dash, underscore, dot)"
    ∧ ((portsRequest defaultConfig envLive "a:b" none none []).1).isBad = true := by
  decide

/-- Claim C1 (amended): a claim request is rejected with status 400 for
the identity precisely when the identity is not a valid *single*
segment — non-empty, at most 255 characters, every character
alphanumeric or `.`/`_`/`-`.  In particular any identity containing a
colon (any two- or three-segment `project:stack[:context]` form) is
rejected with 400; only one-segment identities pass validation. -/
theorem claim_identity_validation_single_segment (cfg : Config) (env : Env) (s : State)
    (project : String) :
    (((portsRequest cfg env project none none s).1).isBad = true ↔
      ¬(project ≠ "" ∧ project.length ≤ 255 ∧ ∀ c ∈ project.toList, isAllowedChar c = true))
    ∧ (':' ∈ project.toList → ((portsRequest cfg env project none none s).1).isBad = true) := by
  have hmain : ((portsRequest cfg env project none none s).1).isBad = true ↔
      ¬(project ≠ "" ∧ project.length ≤ 255 ∧ ∀ c ∈ project.toList, isAllowedChar c = true) := by
    rcases hv : validateProjectName project with e | u
    · constructor
      · intro _
        intro hcond
        rw [(validateProjectName_ok_iff project).mpr hcond] at hv
        cases hv
      · intro _
        simp [portsRequest, hv, ClaimResult.isBad]
    · cases u
      have hnotbad : ((portsRequest cfg env project none none s).1).isBad = false := by
        have hpid : validatePid none = .ok none := rfl
        have hpref : validatePreferredPort cfg none = .ok none := rfl
        rcases hg : getByProject project s with _ | r
        · simp [portsRequest, hv, hpid, hpref, hg, portsAssignPhase_fst_not_bad]
        · by_cases ha : env.alive r.pid
          · simp [portsRequest, hv, hpid, hpref, hg, ha, ClaimResult.isBad]
          · simp [portsRequest, hv, hpid, hpref, hg, ha, portsAssignPhase_fst_not_bad]
      rw [hnotbad]
      constructor
      · intro hfb; cases hfb
      · intro hcond
        exact absurd ((validateProjectName_ok_iff project).mp hv) hcond
  refine ⟨hmain, ?_⟩
  intro hc
  exact hmain.mpr (fun hcond => absurd (hcond.2.2 ':' hc) (by decide))

/-- Claim C1 witness: a concrete single-segment identity passes
validation while a concrete colon identity is rejected with 400. -/
theorem claim_identity_validation_single_segment_witness :
    ((portsRequest defaultConfig envLive "my.app_1" none none []).1).isBad = false
    ∧ ((portsRequest defaultConfig envLive "x:y" none none []).1).isBad = true := by
  constructor
  · have h := (claim_identity_validation_single_segment defaultConfig envLive [] "my.app_1").1
    exact Bool.eq_false_iff.mpr
      (fun hb => (h.mp hb) ⟨by decide, by decide, by decide⟩)
  · exact (claim_identity_validation_single_segment defaultConfig envLive [] "x:y").2 (by decide)

/-! ### Claims C6 and C7 -/

theorem validatePort_some_error {p : Nat} (h : p < 1 ∨ p > 65535) :
    validatePort (some p) = .error "port must be between 1 and 65535" := by
  unfold validatePort
  simp
  omega

theorem validatePort_some_ok {p : Nat} (h1 : 1 ≤ p) (h2 : p ≤ 65535) :
    validatePort (some p) = .ok (some p) := by
  unfold validatePort
  simp
  omega

/-- Claim C6 counterexample: a release request for port 500 (outside the
claimed range [1024, 65535]) and one for the reserved port 8080 both
succeed instead of returning 400, while a claim preferring port 10000 —
inside [1024, 65535] and unreserved — is rejected with 400 because it
lies outside the configured range 3100-9999. -/
theorem release_port_validation_counterexample :
    ((portsRelease defaultConfig (some 500) none []).1).isBad = false
    ∧ 500 < 1024
    ∧ ((portsRelease defaultConfig (some 8080) none []).1).isBad = false
    ∧ 8080 ∈ defaultConfig.reserved
    ∧ ((portsRequest defaultConfig envLive "myapp" (some 10000) none []).1).isBad = true
    ∧ 1024 ≤ 10000 ∧ 10000 ≤ 65535 ∧ 10000 ∉ defaultConfig.reserved := by
  decide

/-- Claim C6 (amended): the two port-carrying requests validate
differently.  A release by port is rejected with 400 exactly when the
port lies outside [1, 65535] — the reserved set and the configured range
are not consulted.  A claim with a preferred port (and a valid identity)
is rejected with 400 exactly when the port lies outside [1, 65535], or
outside the configured range, or in the reserved set. -/
theorem port_parameter_validation (cfg : Config) (env : Env) (s : State)
    (project : String) (p : Nat) :
    (((portsRelease cfg (some p) none s).1).isBad = true ↔ (p < 1 ∨ p > 65535))
    ∧ (validateProjectName project = .ok () →
        (((portsRequest cfg env project (some p) none s).1).isBad = true ↔
          (p < 1 ∨ p > 65535 ∨ p < cfg.rangeStart ∨ p > cfg.rangeEnd ∨ p ∈ cfg.reserved))) := by
  have hpid : validatePid none = .ok none := rfl
  constructor
  · by_cases hA : p < 1 ∨ p > 65535
    · have hbad : ((portsRelease cfg (some p) none s).1).isBad = true := by
        simp [portsRelease, validatePort_some_error hA, ReleaseResult.isBad]
      exact iff_of_true hbad hA
    · have hA1 : 1 ≤ p := by omega
      have hA2 : p ≤ 65535 := by omega
      have hok : ((portsRelease cfg (some p) none s).1).isBad = false := by
        simp [portsRelease, validatePort_some_ok hA1 hA2, ReleaseResult.isBad]
      exact iff_of_false (by simp [hok]) hA
  · intro hname
    by_cases hA : p < 1 ∨ p > 65535
    · have hv : validatePreferredPort cfg (some p) =
          .error "port must be between 1 and 65535" := by
        unfold validatePreferredPort
        rw [validatePort_some_error hA]
      have hbad : ((portsRequest cfg env project (some p) none s).1).isBad = true := by
        simp [portsRequest, hname, hpid, hv, ClaimResult.isBad]
      exact iff_of_true hbad (by tauto)
    · have hA1 : 1 ≤ p := by omega
      have hA2 : p ≤ 65535 := by omega
      by_cases hB : p < cfg.rangeStart ∨ p > cfg.rangeEnd
      · have hv : validatePreferredPort cfg (some p) =
            .error ("preferred port must be in range " ++ toString cfg.rangeStart ++ "-"
              ++ toString cfg.rangeEnd) := by
          unfold validatePreferredPort
          rw [validatePort_some_ok hA1 hA2]
          have hb : (decide (p < cfg.rangeStart) || decide (p > cfg.rangeEnd)) = true := by
            rcases hB with h | h <;> simp [h]
          simp [hb]
        have hbad : ((portsRequest cfg env project (some p) none s).1).isBad = true := by
          simp [portsRequest, hname, hpid, hv, ClaimResult.isBad]
        exact iff_of_true hbad (by tauto)
      · by_cases hC : p ∈ cfg.reserved
        · have hv : validatePreferredPort cfg (some p) =
              .error "preferred port is reserved and cannot be assigned" := by
            unfold validatePreferredPort
            rw [validatePort_some_ok hA1 hA2]
            have hb : (decide (p < cfg.rangeStart) || decide (p > cfg.rangeEnd)) = false := by
              simp
              omega
            simp [hb, hC]
          have hbad : ((portsRequest cfg env project (some p) none s).1).isBad = true := by
            simp [portsRequest, hname, hpid, hv, ClaimResult.isBad]
          exact iff_of_true hbad (by tauto)
        · have hv : validatePreferredPort cfg (some p) = .ok (some p) := by
            unfold validatePreferredPort
            rw [validatePort_some_ok hA1 hA2]
            have hb : (decide (p < cfg.rangeStart) || decide (p > cfg.rangeEnd)) = false := by
              simp
              omega
            simp [hb, hC]
          have hnotbad : ((portsRequest cfg env project (some p) none s).1).isBad = false := by
            rcases hg : getByProject project s with _ | r
            · simp [portsRequest, hname, hpid, hv, hg, portsAssignPhase_fst_not_bad]
            · by_cases ha : env.alive r.pid
              · simp [portsRequest, hname, hpid, hv, hg, ha, ClaimResult.isBad]
              · simp [portsRequest, hname, hpid, hv, hg, ha, portsAssignPhase_fst_not_bad]
          refine iff_of_false (by simp [hnotbad]) ?_
          push_neg
          exact ⟨by omega, by omega, by omega, by omega, hC⟩

/-- Claim C6 witness: port 70000 is rejected on release; the reserved
preferred port 8080 is rejected on claim. -/
theorem port_parameter_validation_witness :
    ((portsRelease defaultConfig (some 70000) none []).1).isBad = true
    ∧ ((portsRequest defaultConfig envLive "myapp" (some 8080) none []).1).isBad = true := by
  constructor
  · exact ((port_parameter_validation defaultConfig envLive [] "myapp" 70000).1).mpr
      (Or.inr (by decide))
  · exact ((port_parameter_validation defaultConfig envLive [] "myapp" 8080).2
      rfl).mpr (Or.inr (Or.inr (Or.inr (Or.inr (by decide)))))

/-- Claim C7 counterexample: releasing port 4000 produces the identical
response whether one row was deleted or none was — the by-port release
response carries no count of deleted rows (and no `released` field). -/
theorem release_count_not_reported_counterexample :
    (portsRelease defaultConfig (some 4000) none [⟨4000, "x", 1, 0, 0⟩]).1 =
      (portsRelease defaultConfig (some 4000) none []).1
    ∧ (portsRelease defaultConfig (some 4000) none [⟨4000, "x", 1, 0, 0⟩]).2 = []
    ∧ (portsRelease defaultConfig (some 4000) none []).2 = [] := by
  decide

/-- Claim C7 (amended): a release by project deletes the matching rows
and reports their exact count (inside the `message` string); a release
by port deletes the matching rows but returns a fixed success message
with no count; in both cases a release that matches no rows still
succeeds with HTTP 200 as a no-op (the same equations hold for an
empty match set). -/
theorem release_semantics (cfg : Config) (s : State) (p : Nat) (proj : String) :
    (1 ≤ p → p ≤ 65535 →
      portsRelease cfg (some p) none s =
        (.ok ("released port " ++ toString p), s.filter (fun r => r.port != p)))
    ∧ (validateProjectName proj = .ok () →
      portsRelease cfg none (some proj) s =
        (.ok ("released " ++ toString ((s.filter (fun r => r.project == proj)).length)
            ++ " port(s) for project " ++ proj),
          s.filter (fun r => r.project != proj))) := by
  constructor
  · intro h1 h2
    simp [portsRelease, validatePort_some_ok h1 h2, deleteByPort]
  · intro hname
    have hlen : s.length - (s.filter (fun r => r.project != proj)).length =
        (s.filter (fun r => r.project == proj)).length := by
      have hsplit : s.length = (s.filter (fun r => r.project == proj)).length +
          (s.filter (fun r => !(r.project == proj))).length :=
        List.length_eq_length_filter_add _
      have hbne : (fun r : Row => r.project != proj) =
          (fun r : Row => !(r.project == proj)) := by
        funext r
        rfl
      rw [hbne]
      omega
    simp [portsRelease, hname, deleteByProject, hlen]

/-- Claim C7 witness: concrete releases — by port with one match, and by
project with one of two rows matching. -/
theorem release_semantics_witness :
    portsRelease defaultConfig (some 4000) none [⟨4000, "x", 1, 0, 0⟩] =
      (.ok "released port 4000", [])
    ∧ portsRelease defaultConfig none (some "x")
        [⟨4000, "x", 1, 0, 0⟩, ⟨4001, "y", 2, 0, 0⟩] =
      (.ok "released 1 port(s) for project x", [⟨4001, "y", 2, 0, 0⟩]) := by
  constructor
  · have h := (release_semantics defaultConfig [⟨4000, "x", 1, 0, 0⟩] 4000 "x").1
      (by decide) (by decide)
    rw [h]
    decide
  · have h := (release_semantics defaultConfig
      [⟨4000, "x", 1, 0, 0⟩, ⟨4001, "y", 2, 0, 0⟩] 4000 "x").2 rfl
    rw [h]
    decide

/-! ### Claim C3 -/

/-- Claim C3: for an identity whose existing assignment's recorded pid
is alive, a repeated claim returns the same port with `existing: true`,
refreshes the row's `last_seen` to the current time, and inserts no new
row — the table keeps the same length and every field other than
`last_seen` of every row is unchanged. -/
theorem claim_idempotent_for_live_owner (cfg : Config) (env : Env) (s : State)
    (project : String) (preferred xpid : Option Nat) (r : Row)
    (hname : validateProjectName project = .ok ())
    (hpid : ∃ pv, validatePid xpid = .ok pv)
    (hpref : ∃ pp, validatePreferredPort cfg preferred = .ok pp)
    (hfind : getByProject project s = some r)
    (halive : env.alive r.pid = true) :
    portsRequest cfg env project preferred xpid s =
      (.ok r.port "existing assignment renewed" (some true), updateLastSeen env.now r.port s)
    ∧ (updateLastSeen env.now r.port s).length = s.length
    ∧ (updateLastSeen env.now r.port s).map
        (fun row => (row.port, row.project, row.pid, row.started)) =
      s.map (fun row => (row.port, row.project, row.pid, row.started)) := by
  obtain ⟨pv, hpv⟩ := hpid
  obtain ⟨pp, hpp⟩ := hpref
  refine ⟨?_, ?_, ?_⟩
  · simp [portsRequest, hname, hpv, hpp, hfind, halive]
  · simp [updateLastSeen]
  · rw [updateLastSeen, List.map_map]
    apply List.map_congr_left
    intro a ha
    by_cases h : a.port = r.port <;> simp [h]

/-- Claim C3 witness: repeating the claim for `"myapp"` against a table
holding its live assignment on port 3100 returns port 3100 with
`existing: true` and only bumps `last_seen`. -/
theorem claim_idempotent_for_live_owner_witness :
    portsRequest defaultConfig envLive "myapp" none none [⟨3100, "myapp", 42, 5, 5⟩] =
      (.ok 3100 "existing assignment renewed" (some true), [⟨3100, "myapp", 42, 5, 7⟩])
    ∧ ([⟨3100, "myapp", 42, 5, 7⟩] : State).length =
        ([⟨3100, "myapp", 42, 5, 5⟩] : State).length := by
  have h := claim_idempotent_for_live_owner defaultConfig envLive
    [⟨3100, "myapp", 42, 5, 5⟩] "myapp" none none ⟨3100, "myapp", 42, 5, 5⟩
    rfl ⟨none, rfl⟩ ⟨none, rfl⟩ rfl rfl
  refine ⟨?_, rfl⟩
  rw [h.1]
  decide

/-! ### Claim C8 -/

theorem cleanupStaleLoop_fst (env : Env) (snap : List Row) :
    ∀ s, (cleanupStaleLoop env snap s).1 =
      (snap.filter (fun e => !env.alive e.pid)).map (fun e => (e.port, e.project)) := by
  induction snap with
  | nil => intro s; rfl
  | cons e rest ih =>
    intro s
    by_cases ha : env.alive e.pid
    · simp [cleanupStaleLoop, ha, ih]
    · simp [cleanupStaleLoop, ha, ih]

theorem cleanupStaleLoop_snd (env : Env) (snap : List Row) :
    ∀ s, (cleanupStaleLoop env snap s).2 =
      s.filter (fun r =>
        !((snap.filter (fun e => !env.alive e.pid)).map (fun e => e.port)).contains r.port) := by
  induction snap with
  | nil => intro s; simp [cleanupStaleLoop]
  | cons e rest ih =>
    intro s
    by_cases ha : env.alive e.pid
    · simp only [cleanupStaleLoop, ha, if_true]
      rw [ih s]
      apply List.filter_congr
      intro a _
      simp [ha]
    · simp only [cleanupStaleLoop, ha, if_false, Bool.false_eq_true]
      rw [ih (deleteByPort e.port s)]
      unfold deleteByPort
      rw [List.filter_filter]
      apply List.filter_congr
      intro a _
      simp only [List.filter_cons, ha, Bool.not_false, if_true, List.map_cons,
        List.contains_cons]
      cases hpe : a.port == e.port <;>
        cases hc : ((rest.filter (fun x => !env.alive x.pid)).map (fun e => e.port)).contains a.port <;>
        simp_all [bne]

/-- Claim C8: the cleanup sweep removes exactly the rows whose recorded
pid is dead: the surviving table is the alive-pid rows unchanged and in
order, and the freed list is exactly the dead-pid rows. -/
theorem cleanup_removes_exactly_dead_rows (env : Env) (s : State)
    (hports : (s.map (fun r => r.port)).Nodup) :
    (cleanupStale env s).2 = s.filter (fun r => env.alive r.pid)
    ∧ (cleanupStale env s).1 =
        (s.filter (fun r => !env.alive r.pid)).map (fun e => (e.port, e.project)) := by
  refine ⟨?_, cleanupStaleLoop_fst env s s⟩
  rw [cleanupStale, cleanupStaleLoop_snd env s s]
  apply List.filter_congr
  intro a ha
  by_cases hal : env.alive a.pid
  · have hc : ((s.filter (fun e => !env.alive e.pid)).map (fun e => e.port)).contains a.port
        = false := by
      rcases hcc : ((s.filter (fun e => !env.alive e.pid)).map (fun e => e.port)).contains a.port
        with _ | _
      · exact hcc
      · exfalso
        rcases List.mem_map.mp (List.elem_iff.mp hcc) with ⟨e, he, hpe⟩
        have heS : e ∈ s := (List.mem_filter.mp he).1
        have hedead := (List.mem_filter.mp he).2
        have : e = a := List.inj_on_of_nodup_map hports heS ha hpe
        rw [this] at hedead
        simp [hal] at hedead
    simp only [hc, hal, Bool.not_false]
  · have hal2 : env.alive a.pid = false := by simpa using hal
    have hc : ((s.filter (fun e => !env.alive e.pid)).map (fun e => e.port)).contains a.port
        = true :=
      List.elem_iff.mpr (List.mem_map.mpr
        ⟨a, List.mem_filter.mpr ⟨ha, by rw [hal2]; rfl⟩, rfl⟩)
    simp only [hc, hal2, Bool.not_true]

/-- Claim C8 witness: with pid 42 alive and pid 43 dead, the sweep keeps
exactly the 42-row and frees exactly the 43-row. -/
theorem cleanup_removes_exactly_dead_rows_witness :
    (cleanupStale envMixed [⟨3100, "a", 42, 0, 0⟩, ⟨3101, "b", 43, 0, 0⟩]).2 =
      [⟨3100, "a", 42, 0, 0⟩]
    ∧ (cleanupStale envMixed [⟨3100, "a", 42, 0, 0⟩, ⟨3101, "b", 43, 0, 0⟩]).1 =
      [(3101, "b")] := by
  have h := cleanup_removes_exactly_dead_rows envMixed
    [⟨3100, "a", 42, 0, 0⟩, ⟨3101, "b", 43, 0, 0⟩] (by decide)
  exact ⟨by rw [h.1]; decide, by rw [h.2]; decide⟩

/-! ### Lemmas about `assignPortWithRetry` -/

theorem assignPortWithRetry_mem (cfg : Config) (env : Env) (project : String) (pid : Nat) :
    ∀ (fuel : Nat) (pref : Option Nat) (s : State) (row : Row),
      row ∈ (assignPortWithRetry cfg env project pid pref fuel s).2 →
      row ∈ s ∨ (row.project = project ∧ row.pid = pid ∧ row.started = env.now
        ∧ row.last_seen = env.now) := by
  intro fuel
  induction fuel with
  | zero => intro pref s row h; exact Or.inl h
  | succ n ih =>
    intro pref s row h
    simp only [assignPortWithRetry] at h
    repeat' split at h
    all_goals
      first
      | exact Or.inl h
      | exact Or.inl (List.mem_of_mem_filter h)
      | (rcases ih _ _ _ h with h2 | h2
         · first
           | exact Or.inl h2
           | exact Or.inl (List.mem_of_mem_filter h2)
         · exact Or.inr h2)
      | (rcases List.mem_append.mp h with h2 | h2
         · first
           | exact Or.inl h2
           | exact Or.inl (List.mem_of_mem_filter h2)
         · rw [List.mem_singleton] at h2
           subst h2
           exact Or.inr ⟨rfl, rfl, rfl, rfl⟩)

theorem assignPortWithRetry_ok_mem (cfg : Config) (env : Env) (project : String) (pid : Nat) :
    ∀ (fuel : Nat) (pref : Option Nat) (s : State) (p : Nat) (s2 : State),
      assignPortWithRetry cfg env project pid pref fuel s = (.ok p, s2) →
      (⟨p, project, pid, env.now, env.now⟩ : Row) ∈ s2 := by
  intro fuel
  induction fuel with
  | zero =>
    intro pref s p s2 h
    simp [assignPortWithRetry, Prod.ext_iff] at h
  | succ n ih =>
    intro pref s p s2 h
    simp only [assignPortWithRetry] at h
    repeat' split at h
    all_goals
      first
      | (exact ih _ _ _ _ h)
      | (injection h with h1 h2
         exact Except.noConfusion h1)
      | (injection h with h1 h2
         injection h1 with h1
         subst h1
         subst h2
         exact List.mem_append_right _ (List.mem_singleton.mpr rfl))

theorem portsAssignPhase_ok_inv (cfg : Config) (env : Env) (project : String) (pid : Nat)
    (pref : Option Nat) (s : State) (p : Nat) (m : String) (e : Option Bool)
    (h : (portsAssignPhase cfg env project pid pref s).1 = .ok p m e) :
    e = none ∧ assignPortWithRetry cfg env project pid (portToTryOf env pref) 3 s =
      (.ok p, (portsAssignPhase cfg env project pid pref s).2) := by
  rcases h2 : assignPortWithRetry cfg env project pid (portToTryOf env pref) 3 s with ⟨r, s2⟩
  cases r with
  | ok q =>
    have hps : portsAssignPhase cfg env project pid pref s =
        (.ok q (if pref == some q then "assigned preferred port"
          else "port assigned successfully") none, s2) := by
      unfold portsAssignPhase
      rw [h2]
    rw [hps] at h
    simp only [ClaimResult.ok.injEq] at h
    obtain ⟨hq, _, he⟩ := h
    subst hq
    rw [hps]
    exact ⟨he.symm, rfl⟩
  | error e2 =>
    have hps : portsAssignPhase cfg env project pid pref s = (.serverError e2, s2) := by
      unfold portsAssignPhase
      rw [h2]
    rw [hps] at h
    cases h

/-! ### Claim C4 -/

/-- Claim C4 counterexample: reclaiming an identity whose recorded pid
is dead succeeds, but the fresh-assignment response (server.js line 465)
carries no `existing` field at all — in particular not `existing: false`
as the claim states. -/
theorem stale_claim_existing_field_counterexample :
    (portsRequest defaultConfig envDead "myapp" none none [⟨3100, "myapp", 42, 0, 0⟩]).1 =
      .ok 3100 "port assigned successfully" none
    ∧ ((portsRequest defaultConfig envDead "myapp" none none
        [⟨3100, "myapp", 42, 0, 0⟩]).1).existingField ≠ some false := by
  decide

/-- Claim C4 (amended): for an identity whose existing assignment's pid
is dead, the claim deletes the stale row and proceeds to a fresh
assignment (possibly of the same port); the response never carries an
`existing` field — neither `existing: true` nor `existing: false` — and
on success the table holds a fresh row for the identity on the returned
port. -/
theorem claim_stale_reclaim (cfg : Config) (env : Env) (s : State) (project : String)
    (r : Row)
    (hname : validateProjectName project = .ok ())
    (hfind : getByProject project s = some r)
    (hdead : env.alive r.pid = false)
    (hstart : r.started ≠ env.now) :
    ((portsRequest cfg env project none none s).1).existingField = none
    ∧ r ∉ (portsRequest cfg env project none none s).2
    ∧ (∀ p m e, (portsRequest cfg env project none none s).1 = .ok p m e →
        e = none ∧ (⟨p, project, cfg.selfPid, env.now, env.now⟩ : Row) ∈
          (portsRequest cfg env project none none s).2) := by
  have hpid : validatePid none = .ok none := rfl
  have hpref : validatePreferredPort cfg none = .ok none := rfl
  have hreq : portsRequest cfg env project none none s =
      portsAssignPhase cfg env project cfg.selfPid none (deleteByPort r.port s) := by
    simp [portsRequest, hname, hpid, hpref, hfind, hdead]
  rw [hreq]
  refine ⟨portsAssignPhase_fst_existingField cfg env project cfg.selfPid none _, ?_, ?_⟩
  · rw [portsAssignPhase_snd]
    intro hmem
    rcases assignPortWithRetry_mem cfg env project cfg.selfPid 3 (portToTryOf env none)
      (deleteByPort r.port s) r hmem with h2 | h2
    · have h3 := (List.mem_filter.mp h2).2
      simp [bne] at h3
    · exact hstart h2.2.2.1
  · intro p m e h
    obtain ⟨he, hcall⟩ := portsAssignPhase_ok_inv cfg env project cfg.selfPid none
      (deleteByPort r.port s) p m e h
    refine ⟨he, ?_⟩
    rw [portsAssignPhase_snd]
    have h4 := assignPortWithRetry_ok_mem cfg env project cfg.selfPid 3
      (portToTryOf env none) (deleteByPort r.port s) p _ hcall
    rw [portsAssignPhase_snd] at h4
    exact h4

/-- Claim C4 witness: the concrete stale reclaim — dead pid 42 on
port 3100 — yields a response without an `existing` field and a table no
longer containing the stale row. -/
theorem claim_stale_reclaim_witness :
    ((portsRequest defaultConfig envDead "myapp" none none
        [⟨3100, "myapp", 42, 0, 0⟩]).1).existingField = none
    ∧ (⟨3100, "myapp", 42, 0, 0⟩ : Row) ∉
        (portsRequest defaultConfig envDead "myapp" none none
          [⟨3100, "myapp", 42, 0, 0⟩]).2 := by
  have h := claim_stale_reclaim defaultConfig envDead [⟨3100, "myapp", 42, 0, 0⟩]
    "myapp" ⟨3100, "myapp", 42, 0, 0⟩ rfl rfl rfl (by decide)
  exact ⟨h.1, h.2.1⟩

/-! ### Claim C5 -/

theorem findFirst_spec (f : Nat → Bool) :
    ∀ (fuel start p : Nat), findFirst f start fuel = some p →
      f p = true ∧ start ≤ p ∧ p < start + fuel
        ∧ ∀ q, start ≤ q → q < p → f q = false := by
  intro fuel
  induction fuel with
  | zero => intro start p h; simp [findFirst] at h
  | succ n ih =>
    intro start p h
    rw [findFirst] at h
    by_cases hf : f start = true
    · rw [if_pos hf] at h
      have hp := Option.some.inj h
      subst hp
      exact ⟨hf, Nat.le_refl _, by omega, fun q hq1 hq2 => by omega⟩
    · rw [if_neg hf] at h
      obtain ⟨h1, h2, h3, h4⟩ := ih (start + 1) p h
      refine ⟨h1, by omega, by omega, ?_⟩
      intro q hq1 hq2
      rcases Nat.eq_or_lt_of_le hq1 with heq | hlt
      · rw [← heq]
        exact Bool.eq_false_iff.mpr hf
      · exact h4 q hlt hq2

theorem findAvailablePort_spec (cfg : Config) (env : Env) (s : State) (p : Nat)
    (h : findAvailablePort cfg env s = some p) :
    portCandidateOk cfg env s p = true ∧ cfg.rangeStart ≤ p ∧ p ≤ cfg.rangeEnd
    ∧ ∀ q, cfg.rangeStart ≤ q → q < p → portCandidateOk cfg env s q = false := by
  unfold findAvailablePort at h
  obtain ⟨h1, h2, h3, h4⟩ := findFirst_spec _ _ _ _ h
  exact ⟨h1, h2, by omega, h4⟩

theorem portCandidateOk_true_iff (cfg : Config) (env : Env) (s : State) (q : Nat) :
    portCandidateOk cfg env s q = true ↔
      (∀ r ∈ s, r.port ≠ q) ∧ q ∉ env.sysPorts ∧ q ∉ cfg.reserved
        ∧ env.sysListen q = false := by
  unfold portCandidateOk
  simp only [Bool.and_eq_true, Bool.not_eq_true']
  constructor
  · rintro ⟨⟨⟨hdb, hsys⟩, hres⟩, hlst⟩
    refine ⟨?_, ?_, ?_, hlst⟩
    · intro r hr hpr
      have hmem : q ∈ s.map (fun r => r.port) := List.mem_map.mpr ⟨r, hr, hpr⟩
      have hc : (s.map (fun r => r.port)).contains q = true := List.elem_iff.mpr hmem
      rw [hc] at hdb
      cases hdb
    · intro hq
      have hc : env.sysPorts.contains q = true := List.elem_iff.mpr hq
      rw [hc] at hsys
      cases hsys
    · intro hq
      have hc : cfg.reserved.contains q = true := List.elem_iff.mpr hq
      rw [hc] at hres
      cases hres
  · rintro ⟨hdb, hsys, hres, hlst⟩
    refine ⟨⟨⟨?_, ?_⟩, ?_⟩, hlst⟩
    · rcases hc : (s.map (fun r => r.port)).contains q with _ | _
      · exact hc
      · exfalso
        rcases List.mem_map.mp (List.elem_iff.mp hc) with ⟨r, hr, hpr⟩
        exact hdb r hr hpr
    · rcases hc : env.sysPorts.contains q with _ | _
      · rfl
      · exact absurd (List.elem_iff.mp hc) hsys
    · rcases hc : cfg.reserved.contains q with _ | _
      · rfl
      · exact absurd (List.elem_iff.mp hc) hres

theorem getByPort_eq_none (p : Nat) (s : State) (hdb : ∀ r ∈ s, r.port ≠ p) :
    getByPort p s = none := by
  unfold getByPort
  rw [List.find?_eq_none]
  intro r hr
  simp [hdb r hr]

theorem assignPortWithRetry_first_preferred (cfg : Config) (env : Env) (project : String)
    (pid p : Nat) (s : State)
    (hdb : getByPort p s = none) (hlisten : env.sysListen p = false) (hp0 : p ≠ 0) :
    assignPortWithRetry cfg env project pid (some p) 3 s =
      (.ok p, s ++ [⟨p, project, pid, env.now, env.now⟩]) := by
  have hpt : prefTruthy (some p) = true := by simp [prefTruthy, hp0]
  rw [assignPortWithRetry]
  rw [if_pos hpt]
  simp [hdb, hlisten]

theorem assignPortWithRetry_first_scan (cfg : Config) (env : Env) (project : String)
    (pid p : Nat) (s : State)
    (hfap : findAvailablePort cfg env s = some p) :
    assignPortWithRetry cfg env project pid none 3 s =
      (.ok p, s ++ [⟨p, project, pid, env.now, env.now⟩]) := by
  obtain ⟨hok, _, _, _⟩ := findAvailablePort_spec cfg env s p hfap
  obtain ⟨hdb, _, _, hlisten⟩ := (portCandidateOk_true_iff cfg env s p).mp hok
  have hdbn : getByPort p s = none := getByPort_eq_none p s hdb
  rw [assignPortWithRetry]
  rw [if_neg (by simp [prefTruthy])]
  rw [hfap]
  simp [hdbn, hlisten]

/-- Claim C5: the port search behaves as specified.
(i) When the system-port cache is fresh (younger than the 2000 ms TTL),
`getSystemPorts` returns the cached scan unchanged — whatever this
call's `lsof` scan would have produced — and does not update the cache.
(ii) A usable preferred port — in range, unreserved, colliding with no
database row and not LISTENing — is assigned itself.
(iii) Without a preferred port, the assigned port is the result of the
range scan `findAvailablePort`, which returns the first port of the
configured range that skips (a) database rows, (b) OS-reported LISTEN
ports, (c) reserved ports. -/
theorem port_search_skips_and_cache (cfg : Config) (env : Env) (s : State) (project : String)
    (p pref : Nat) (cache : SysCache) (now : Nat) (scan : Option (List PortInfo))
    (d : List PortInfo) :
    (cache.data = some d → now - cache.timestamp < SYSTEM_PORTS_CACHE_TTL →
      getSystemPorts cache now scan = (d, cache))
    ∧ (validateProjectName project = .ok () → getByProject project s = none →
       1 ≤ pref → pref ≤ 65535 → cfg.rangeStart ≤ pref → pref ≤ cfg.rangeEnd →
       pref ∉ cfg.reserved → (∀ r ∈ s, r.port ≠ pref) → env.sysListen pref = false →
       portsRequest cfg env project (some pref) none s =
         (.ok pref "assigned preferred port" none,
          s ++ [⟨pref, project, cfg.selfPid, env.now, env.now⟩]))
    ∧ (validateProjectName project = .ok () → getByProject project s = none →
       findAvailablePort cfg env s = some p →
       portsRequest cfg env project none none s =
         (.ok p "port assigned successfully" none,
          s ++ [⟨p, project, cfg.selfPid, env.now, env.now⟩])
       ∧ (∀ r ∈ s, r.port ≠ p) ∧ p ∉ env.sysPorts ∧ p ∉ cfg.reserved
       ∧ env.sysListen p = false ∧ cfg.rangeStart ≤ p ∧ p ≤ cfg.rangeEnd
       ∧ (∀ q, cfg.rangeStart ≤ q → q < p → portCandidateOk cfg env s q = false)) := by
  have hpid : validatePid none = .ok none := rfl
  refine ⟨?_, ?_, ?_⟩
  · intro hdata hfresh
    unfold getSystemPorts
    rw [hdata]
    simp [hfresh]
  · intro hname hnofind h1 h2 h3 h4 h5 hdb hlisten
    have hv : validatePreferredPort cfg (some pref) = .ok (some pref) := by
      unfold validatePreferredPort
      rw [validatePort_some_ok h1 h2]
      have hb : (decide (pref < cfg.rangeStart) || decide (pref > cfg.rangeEnd)) = false := by
        simp
        omega
      simp [hb, h5]
    have hassign := assignPortWithRetry_first_preferred cfg env project cfg.selfPid pref s
      (getByPort_eq_none pref s hdb) hlisten (by omega)
    have hpt : portToTryOf env (some pref) = some pref := by
      simp [portToTryOf, hlisten]
    simp [portsRequest, hname, hpid, hv, hnofind, portsAssignPhase, hpt, hassign]
  · intro hname hnofind hfap
    obtain ⟨hok, hlo, hhi, hleast⟩ := findAvailablePort_spec cfg env s p hfap
    obtain ⟨hdb, hsys, hres, hlisten⟩ := (portCandidateOk_true_iff cfg env s p).mp hok
    have hassign := assignPortWithRetry_first_scan cfg env project cfg.selfPid p s hfap
    have hpref : validatePreferredPort cfg none = .ok none := rfl
    refine ⟨?_, hdb, hsys, hres, hlisten, hlo, hhi, hleast⟩
    simp [portsRequest, hname, hpid, hpref, hnofind, portsAssignPhase, portToTryOf, hassign]

/-- Claim C5 witness: a fresh cache is returned verbatim; preferred port
4321 is assigned as-is; without a preference the scan assigns 3100, the
first port of the default range. -/
theorem port_search_skips_and_cache_witness :
    getSystemPorts ⟨some [⟨9000, 5, "c", "u"⟩], 100⟩ 101 none =
      ([⟨9000, 5, "c", "u"⟩], ⟨some [⟨9000, 5, "c", "u"⟩], 100⟩)
    ∧ portsRequest defaultConfig envLive "myapp" (some 4321) none [] =
        (.ok 4321 "assigned preferred port" none, [⟨4321, "myapp", 1, 7, 7⟩])
    ∧ portsRequest defaultConfig envLive "myapp" none none [] =
        (.ok 3100 "port assigned successfully" none, [⟨3100, "myapp", 1, 7, 7⟩]) := by
  have h := port_search_skips_and_cache defaultConfig envLive [] "myapp" 3100 4321
    ⟨some [⟨9000, 5, "c", "u"⟩], 100⟩ 101 none [⟨9000, 5, "c", "u"⟩]
  refine ⟨h.1 rfl (by decide), ?_, ?_⟩
  · have h2 := h.2.1 rfl rfl (by decide) (by decide) (by decide) (by decide) (by decide)
      (by intro r hr; cases hr) rfl
    rw [h2]
    decide
  · have h3 := (h.2.2 rfl rfl (by decide)).1
    rw [h3]
    decide

/-! ### Claim C2 -/

theorem updateLastSeen_map_port (n p : Nat) (s : State) :
    (updateLastSeen n p s).map (fun r => r.port) = s.map (fun r => r.port) := by
  rw [updateLastSeen, List.map_map]
  apply List.map_congr_left
  intro a _
  by_cases h : a.port = p <;> simp [h]

theorem updateLastSeen_map_project (n p : Nat) (s : State) :
    (updateLastSeen n p s).map (fun r => r.project) = s.map (fun r => r.project) := by
  rw [updateLastSeen, List.map_map]
  apply List.map_congr_left
  intro a _
  by_cases h : a.port = p <;> simp [h]

theorem Inv_of_sublist {s1 s2 : State} (h : List.Sublist s1 s2) (hi : Inv s2) : Inv s1 :=
  ⟨List.Nodup.sublist (List.Sublist.map _ h) hi.1,
   List.Nodup.sublist (List.Sublist.map _ h) hi.2⟩

theorem Inv_append_fresh {s : State} (row : Row) (hi : Inv s)
    (hport : ∀ r ∈ s, r.port ≠ row.port) (hproj : ∀ r ∈ s, r.project ≠ row.project) :
    Inv (s ++ [row]) := by
  constructor
  · have h1 : (s ++ [row]).map (fun r => r.port) =
        s.map (fun r => r.port) ++ [row.port] := by simp
    rw [h1, (List.perm_append_singleton _ _).nodup_iff, List.nodup_cons]
    refine ⟨?_, hi.1⟩
    intro hmem
    rcases List.mem_map.mp hmem with ⟨r, hr, hpr⟩
    exact hport r hr hpr
  · have h1 : (s ++ [row]).map (fun r => r.project) =
        s.map (fun r => r.project) ++ [row.project] := by simp
    rw [h1, (List.perm_append_singleton _ _).nodup_iff, List.nodup_cons]
    refine ⟨?_, hi.2⟩
    intro hmem
    rcases List.mem_map.mp hmem with ⟨r, hr, hpr⟩
    exact hproj r hr hpr

theorem getByPort_none_forall {port : Nat} {s : State} (h : getByPort port s = none) :
    ∀ r ∈ s, r.port ≠ port := by
  intro r hr
  have h2 := List.find?_eq_none.mp h r hr
  simpa using h2

theorem getByProject_none_forall {project : String} {s : State}
    (h : getByProject project s = none) : ∀ r ∈ s, r.project ≠ project := by
  intro r hr
  have h2 := List.find?_eq_none.mp h r hr
  simpa using h2

theorem getByProject_some_facts {project : String} {s : State} {ex : Row}
    (h : getByProject project s = some ex) : ex ∈ s ∧ ex.project = project :=
  ⟨List.mem_of_find?_eq_some h, by simpa using List.find?_some h⟩

theorem assignPortWithRetry_inv (cfg : Config) (env : Env) (project : String) (pid : Nat) :
    ∀ (fuel : Nat) (pref : Option Nat) (s : State),
      Inv s → (∀ row ∈ s, row.project ≠ project) →
      Inv (assignPortWithRetry cfg env project pid pref fuel s).2 := by
  intro fuel
  induction fuel with
  | zero => intro pref s hi hp; exact hi
  | succ n ih =>
    intro pref s hi hp
    have hidel : ∀ port, Inv (deleteByPort port s) :=
      fun port => Inv_of_sublist (List.filter_sublist s) hi
    have hpdel : ∀ port, ∀ row ∈ deleteByPort port s, row.project ≠ project :=
      fun port row hr => hp row (List.mem_of_mem_filter hr)
    simp only [assignPortWithRetry]
    repeat' split
    all_goals
      first
      | exact hi
      | exact hidel _
      | exact ih none s hi hp
      | exact ih none _ (hidel _) (hpdel _)
      | exact Inv_append_fresh _ hi (getByPort_none_forall (by assumption)) hp
      | exact Inv_append_fresh _ (hidel _)
          (fun r hr => by simpa [bne] using (List.mem_filter.mp hr).2) (hpdel _)

theorem portsRequest_inv (cfg : Config) (env : Env) (project : String)
    (preferred xpid : Option Nat) (s : State) (hi : Inv s) :
    Inv (portsRequest cfg env project preferred xpid s).2 := by
  rcases hv : validateProjectName project with e | u
  · have hred : portsRequest cfg env project preferred xpid s = (.badRequest e, s) := by
      simp [portsRequest, hv]
    rw [hred]
    exact hi
  · cases u
    rcases hp : validatePid xpid with e | pv
    · have hred : portsRequest cfg env project preferred xpid s = (.badRequest e, s) := by
        simp [portsRequest, hv, hp]
      rw [hred]
      exact hi
    · rcases hpp : validatePreferredPort cfg preferred with e | pp
      · have hred : portsRequest cfg env project preferred xpid s = (.badRequest e, s) := by
          simp [portsRequest, hv, hp, hpp]
        rw [hred]
        exact hi
      · rcases hg : getByProject project s with _ | ex
        · have hred : portsRequest cfg env project preferred xpid s =
              portsAssignPhase cfg env project (pv.getD cfg.selfPid) pp s := by
            simp [portsRequest, hv, hp, hpp, hg]
          rw [hred, portsAssignPhase_snd]
          exact assignPortWithRetry_inv cfg env project _ 3 _ s hi
            (getByProject_none_forall hg)
        · by_cases ha : env.alive ex.pid = true
          · have hred : portsRequest cfg env project preferred xpid s =
                (.ok ex.port "existing assignment renewed" (some true),
                  updateLastSeen env.now ex.port s) := by
              simp [portsRequest, hv, hp, hpp, hg, ha]
            rw [hred]
            exact ⟨by rw [updateLastSeen_map_port]; exact hi.1,
                   by rw [updateLastSeen_map_project]; exact hi.2⟩
          · have hred : portsRequest cfg env project preferred xpid s =
                portsAssignPhase cfg env project (pv.getD cfg.selfPid) pp
                  (deleteByPort ex.port s) := by
              simp [portsRequest, hv, hp, hpp, hg, ha]
            rw [hred, portsAssignPhase_snd]
            obtain ⟨hexs, hexp⟩ := getByProject_some_facts hg
            refine assignPortWithRetry_inv cfg env project _ 3 _ _
              (Inv_of_sublist (List.filter_sublist s) hi) ?_
            intro row hr hrp
            have hrs : row ∈ s := List.mem_of_mem_filter hr
            have hrow : row = ex := by
              apply List.inj_on_of_nodup_map hi.2 hrs hexs
              rw [hrp, hexp]
            have h2 := (List.mem_filter.mp hr).2
            rw [hrow] at h2
            simp [bne] at h2

theorem portsRelease_inv (cfg : Config) (port : Option Nat) (project : Option String)
    (s : State) (hi : Inv s) : Inv (portsRelease cfg port project s).2 := by
  rcases port with _ | p
  · rcases project with _ | proj
    · have hred : portsRelease cfg none none s =
          (.badRequest "port or project required", s) := by
        simp [portsRelease]
      rw [hred]
      exact hi
    · rcases hv : validateProjectName proj with e | u
      · have hred : portsRelease cfg none (some proj) s = (.badRequest e, s) := by
          simp [portsRelease, hv]
        rw [hred]
        exact hi
      · cases u
        have hred : portsRelease cfg none (some proj) s =
            (.ok ("released " ++ toString (deleteByProject proj s).1
              ++ " port(s) for project " ++ proj), (deleteByProject proj s).2) := by
          simp [portsRelease, hv]
        rw [hred]
        exact Inv_of_sublist (List.filter_sublist s) hi
  · rcases hv : validatePort (some p) with e | v
    · have hred : portsRelease cfg (some p) project s = (.badRequest e, s) := by
        simp [portsRelease, hv]
      rw [hred]
      exact hi
    · have hred : portsRelease cfg (some p) project s =
          (.ok ("released port " ++ toString (v.getD p)), deleteByPort (v.getD p) s) := by
        simp [portsRelease, hv]
      rw [hred]
      exact Inv_of_sublist (List.filter_sublist s) hi

theorem cleanupStale_inv (env : Env) (s : State) (hi : Inv s) :
    Inv (cleanupStale env s).2 := by
  rw [cleanupStale, cleanupStaleLoop_snd env s s]
  exact Inv_of_sublist (List.filter_sublist s) hi

/-- Claim C2: starting from an empty table, after any sequence of claim,
release and cleanup operations — which is what any interleaving of
concurrent requests reduces to, the handlers being fully synchronous —
the `port_assignments` table never contains two rows with the same port
and never two rows with the same project (identity). -/
theorem port_table_unique_ports_and_projects (cfg : Config) (ops : List Op) :
    Inv (ops.foldl (applyOp cfg) []) := by
  have hstep : ∀ s op, Inv s → Inv (applyOp cfg s op) := by
    intro s op hs
    cases op with
    | claim project preferred xpid env => exact portsRequest_inv cfg env project preferred xpid s hs
    | release port project => exact portsRelease_inv cfg port project s hs
    | cleanup env => exact cleanupStale_inv env s hs
  have hfold : ∀ (l : List Op) (s : State), Inv s → Inv (l.foldl (applyOp cfg) s) := by
    intro l
    induction l with
    | nil => intro s hs; exact hs
    | cons op rest ih => intro s hs; exact ih _ (hstep s op hs)
  exact hfold ops [] ⟨List.nodup_nil, List.nodup_nil⟩

end PortDaddy

namespace Changelog

/-! ### Lemmas about prefix queries -/

theorem likeMatch_pct (ps s : List Char) :
    likeMatch ('%' :: ps) s = s.tails.any (likeMatch ps) := by
  rw [likeMatch.eq_def]
  simp

theorem likeMatch_cons (p : Char) (ps s : List Char) (hp : p ≠ '%') :
    likeMatch (p :: ps) s =
      match s with
      | [] => false
      | c :: s2 =>
        (if p = '_' then true else asciiLower p == asciiLower c) && likeMatch ps s2 := by
  rw [likeMatch.eq_def]
  simp [hp]

/-- A literal prefix always `LIKE`-matches the pattern `q%`: `%` and
`_` in `q` only match supersets of their literal occurrences. -/
theorem likeMatch_pct_of_prefix {q i : List Char} (h : q <+: i) :
    likeMatch (q ++ ['%']) i = true := by
  induction q generalizing i with
  | nil =>
    rw [List.nil_append, likeMatch_pct]
    apply List.any_eq_true.mpr
    refine ⟨[], (List.mem_tails _ _).mpr List.nil_suffix, rfl⟩
  | cons p q2 ih =>
    rcases h with ⟨t, ht⟩
    rw [List.cons_append] at ht
    subst ht
    simp only [List.cons_append]
    by_cases hp : p = '%'
    · subst hp
      rw [likeMatch_pct]
      apply List.any_eq_true.mpr
      refine ⟨q2 ++ t, (List.mem_tails _ _).mpr ⟨['%'], rfl⟩, ih ⟨t, rfl⟩⟩
    · rw [likeMatch_cons _ _ _ hp]
      simp [ih ⟨t, rfl⟩]

theorem likePrefixMatch_of_isPrefixOf {q i : List Char} (h : q.isPrefixOf i = true) :
    likePrefixMatch q i = true := by
  unfold likePrefixMatch
  exact likeMatch_pct_of_prefix (List.isPrefixOf_iff_prefix.mp h)

theorem mem_insertByCreatedDesc {x e : CEntry} {l : List CEntry} :
    x ∈ insertByCreatedDesc e l ↔ x = e ∨ x ∈ l := by
  induction l with
  | nil => simp [insertByCreatedDesc]
  | cons y ys ih =>
    rw [insertByCreatedDesc]
    by_cases h : e.createdAt ≤ y.createdAt
    · rw [if_pos h]
      simp only [List.mem_cons, ih]
      tauto
    · rw [if_neg h]
      simp only [List.mem_cons]

theorem mem_sortByCreatedDesc {x : CEntry} {l : List CEntry} :
    x ∈ sortByCreatedDesc l ↔ x ∈ l := by
  induction l with
  | nil => simp [sortByCreatedDesc]
  | cons y ys ih =>
    have hstep : sortByCreatedDesc (y :: ys) = insertByCreatedDesc y (sortByCreatedDesc ys) :=
      rfl
    rw [hstep, mem_insertByCreatedDesc, ih]
    exact (List.mem_cons).symm

theorem length_insertByCreatedDesc (e : CEntry) (l : List CEntry) :
    (insertByCreatedDesc e l).length = l.length + 1 := by
  induction l with
  | nil => rfl
  | cons y ys ih =>
    rw [insertByCreatedDesc]
    by_cases h : e.createdAt ≤ y.createdAt
    · rw [if_pos h]
      simp [ih]
    · rw [if_neg h]
      simp

theorem length_sortByCreatedDesc (l : List CEntry) :
    (sortByCreatedDesc l).length = l.length := by
  induction l with
  | nil => rfl
  | cons y ys ih =>
    have hstep : sortByCreatedDesc (y :: ys) = insertByCreatedDesc y (sortByCreatedDesc ys) :=
      rfl
    rw [hstep, length_insertByCreatedDesc, ih]
    rfl

theorem mem_listByPrefix {store : ChangelogStore} {q : List Char} {limit : Nat} {e : CEntry}
    (he : e ∈ store.rows) (hm : likePrefixMatch q e.identity = true)
    (hc : (store.rows.filter (fun r => likePrefixMatch q r.identity)).length ≤ limit) :
    e ∈ listByPrefix store q limit := by
  unfold listByPrefix
  have hlen : (sortByCreatedDesc
      (store.rows.filter (fun r => likePrefixMatch q r.identity))).length ≤ limit := by
    rw [length_sortByCreatedDesc]
    exact hc
  rw [List.take_of_length_le hlen, mem_sortByCreatedDesc]
  exact List.mem_filter.mpr ⟨he, hm⟩

theorem listByPrefix_subset {store : ChangelogStore} {q : List Char} {limit : Nat}
    {e : CEntry} (h : e ∈ listByPrefix store q limit) :
    e ∈ store.rows ∧ likePrefixMatch q e.identity = true := by
  unfold listByPrefix at h
  have h2 := (List.take_sublist _ _).subset h
  rw [mem_sortByCreatedDesc] at h2
  exact List.mem_filter.mp h2

/-! ### Claim C10 -/

/-- Claim C10: `listTree` matches by raw string prefix (SQLite `LIKE
'q%'`), not by colon-delimited hierarchy: whenever the `LIKE` matches of
the pattern `q%` fit the limit, every stored entry whose identity
literally begins with `q` — colon boundary or not — is in the result,
and every result entry is a stored `LIKE` match of `q%`; so the result
is not restricted to `q` and its hierarchical descendants.  (`LIKE` may
also match beyond the literal prefixes when `q` contains the `%`/`_`
wildcard characters, which the second conjunct accounts for.) -/
theorem listTree_raw_prefix_matching (store : ChangelogStore) (q : List Char) (limit : Nat)
    (hc : (store.rows.filter (fun r => likePrefixMatch q r.identity)).length ≤ limit) :
    (∀ e ∈ store.rows, q.isPrefixOf e.identity = true →
      e ∈ (listTree store q limit).entries)
    ∧ (∀ e ∈ (listTree store q limit).entries,
        e ∈ store.rows ∧ likePrefixMatch q e.identity = true) := by
  constructor
  · intro e he hpre
    exact mem_listByPrefix he (likePrefixMatch_of_isPrefixOf hpre) hc
  · intro e he
    exact listByPrefix_subset he

/-- The concrete one-entry store under identity `"myapp2:api"` used by
the claim-C10 witness. -/
def storeM : ChangelogStore :=
  ⟨[⟨1, "myapp2:api".toList, none, none, "feature", "s", none, none, 5⟩], 2⟩

/-- Claim C10 witness: `listTree("myapp")` returns the entry stored
under `"myapp2:api"`, which is not a hierarchical descendant of
`"myapp"`. -/
theorem listTree_raw_prefix_matching_witness :
    (⟨1, "myapp2:api".toList, none, none, "feature", "s", none, none, 5⟩ : CEntry) ∈
      (listTree storeM ("myapp".toList) 100).entries := by
  exact (listTree_raw_prefix_matching storeM ("myapp".toList) 100 (by decide)).1
    ⟨1, "myapp2:api".toList, none, none, "feature", "s", none, none, 5⟩
    (by decide) (by decide)

/-! ### Lemmas about the identity hierarchy -/

theorem lastIndexOfColon_eq_none {l : List Char} (h : ':' ∉ l) :
    lastIndexOfColon l = none := by
  induction l with
  | nil => rfl
  | cons c rest ih =>
    rw [lastIndexOfColon]
    rw [ih (fun hm => h (List.mem_cons_of_mem c hm))]
    have hc : ¬ c = ':' := fun he => h (he ▸ List.mem_cons_self c rest)
    simp [hc]

theorem lastIndexOfColon_append (l1 l2 : List Char) (h2 : ':' ∉ l2) :
    lastIndexOfColon (l1 ++ ':' :: l2) = some l1.length := by
  induction l1 with
  | nil =>
    simp only [List.nil_append]
    rw [lastIndexOfColon, lastIndexOfColon_eq_none h2]
    simp
  | cons c rest ih =>
    simp only [List.cons_append]
    rw [lastIndexOfColon, ih]
    simp

theorem getParentIdentity_append (l1 l2 : List Char) (h2 : ':' ∉ l2) :
    getParentIdentity (l1 ++ ':' :: l2) = some l1 := by
  unfold getParentIdentity
  rw [lastIndexOfColon_append l1 l2 h2]
  simp [List.take_left]

theorem getParentIdentity_eq_none {l : List Char} (h : ':' ∉ l) :
    getParentIdentity l = none := by
  unfold getParentIdentity
  rw [lastIndexOfColon_eq_none h]

theorem ancestorChain_of_none {s : List Char} (h : getParentIdentity s = none) :
    ancestorChain s = [s] := by
  rw [ancestorChain]
  split
  · rfl
  · rename_i t heq
    rw [h] at heq
    cases heq

theorem ancestorChain_of_some {s t : List Char} (h : getParentIdentity s = some t) :
    ancestorChain s = if t.isEmpty then [s] else s :: ancestorChain t := by
  rw [ancestorChain]
  split
  · rename_i heq
    rw [h] at heq
    cases heq
  · rename_i t2 heq
    rw [h] at heq
    injection heq with heq
    subst heq
    rfl

theorem getAncestors_three (a b c : List Char) (ha : a ≠ []) (hca : ':' ∉ a)
    (hcb : ':' ∉ b) (hcc : ':' ∉ c) :
    getAncestors ((a ++ ':' :: b) ++ ':' :: c) = [a ++ ':' :: b, a] := by
  have h1 : getParentIdentity ((a ++ ':' :: b) ++ ':' :: c) = some (a ++ ':' :: b) :=
    getParentIdentity_append _ _ hcc
  have h2 : getParentIdentity (a ++ ':' :: b) = some a :=
    getParentIdentity_append _ _ hcb
  have h3 : getParentIdentity a = none := getParentIdentity_eq_none hca
  have hne1 : (a ++ ':' :: b).isEmpty = false := by cases a <;> rfl
  have hnea : a.isEmpty = false := by
    cases a with
    | nil => exact absurd rfl ha
    | cons x xs => rfl
  unfold getAncestors
  rw [h1]
  simp only [hne1, Bool.false_eq_true, if_false]
  rw [ancestorChain_of_some h2]
  simp only [hnea, Bool.false_eq_true, if_false]
  rw [ancestorChain_of_none h3]

/-! ### Lemmas about the rollup grouping -/

theorem lookupGroup_insertGroup_self (g : List (List Char × List CEntry)) (e : CEntry) :
    lookupGroup (insertGroup g e) e.identity = lookupGroup g e.identity ++ [e] := by
  induction g with
  | nil => simp [insertGroup, lookupGroup]
  | cons kv rest ih =>
    rcases kv with ⟨k, es⟩
    rw [insertGroup]
    by_cases hk : k = e.identity
    · rw [if_pos hk]
      simp [lookupGroup, List.find?_cons, hk]
    · rw [if_neg hk]
      have hkb : (k == e.identity) = false := by simpa using hk
      simp only [lookupGroup, List.find?_cons, hkb, cond_false]
      exact ih

theorem lookupGroup_insertGroup_other (g : List (List Char × List CEntry)) (e : CEntry)
    (k : List Char) (hk : k ≠ e.identity) :
    lookupGroup (insertGroup g e) k = lookupGroup g k := by
  induction g with
  | nil =>
    have hkb : (e.identity == k) = false := by simpa using (Ne.symm hk)
    simp [insertGroup, lookupGroup, hkb]
  | cons kv rest ih =>
    rcases kv with ⟨k2, es⟩
    rw [insertGroup]
    by_cases hk2 : k2 = e.identity
    · rw [if_pos hk2]
      have hkb : (k2 == k) = false := by
        subst hk2
        simpa using (Ne.symm hk)
      simp [lookupGroup, List.find?_cons, hkb]
    · rw [if_neg hk2]
      by_cases hk3 : k2 = k
      · simp [lookupGroup, List.find?_cons, hk3]
      · have hkb : (k2 == k) = false := by simpa using hk3
        simp only [lookupGroup, List.find?_cons, hkb, cond_false]
        exact ih

theorem mem_lookupGroup_foldl (es : List CEntry) :
    ∀ (g : List (List Char × List CEntry)) (e : CEntry) (k : List Char),
      e ∈ lookupGroup g k → e ∈ lookupGroup (es.foldl insertGroup g) k := by
  induction es with
  | nil => intro g e k h; exact h
  | cons e2 rest ih =>
    intro g e k h
    apply ih
    by_cases hk : k = e2.identity
    · subst hk
      rw [lookupGroup_insertGroup_self]
      exact List.mem_append_left _ h
    · rw [lookupGroup_insertGroup_other _ _ _ hk]
      exact h

theorem mem_lookupGroup_groupByIdentity :
    ∀ (es : List CEntry) (g : List (List Char × List CEntry)) (e : CEntry), e ∈ es →
      e ∈ lookupGroup (es.foldl insertGroup g) e.identity := by
  intro es
  induction es with
  | nil => intro g e h; cases h
  | cons e2 rest ih =>
    intro g e h
    rw [List.foldl_cons]
    rcases List.mem_cons.mp h with rfl | h2
    · apply mem_lookupGroup_foldl
      rw [lookupGroup_insertGroup_self]
      exact List.mem_append_right _ (List.mem_singleton.mpr rfl)
    · exact ih _ _ h2

theorem lookupGroup_key_mem {g : List (List Char × List CEntry)} {k : List Char}
    {e : CEntry} (h : e ∈ lookupGroup g k) : k ∈ g.map Prod.fst := by
  unfold lookupGroup at h
  rcases hf : g.find? (fun kv => kv.1 == k) with _ | kv
  · rw [hf] at h
    cases h
  · rw [hf] at h
    have h1 := List.find?_some hf
    have h2 := List.mem_of_find?_eq_some hf
    refine List.mem_map.mpr ⟨kv, h2, ?_⟩
    simpa using h1

/-! ### Claim C9 -/

/-- The row `changelog.add` inserts (changelog.ts lines 160-170). -/
def addedRow (store : ChangelogStore) (opts : AddOptions) (now : Nat) : CEntry :=
  ⟨store.nextId, opts.identity, opts.sessionId, opts.agentId,
    opts.entryType.getD "feature", opts.summary, opts.description, opts.metadata, now⟩

/-- The concrete one-entry store under identity `"a:b:c"` used by the
claim-C9 counterexample. -/
def store1 : ChangelogStore :=
  ⟨[⟨1, "a:b:c".toList, none, none, "feature", "s", none, none, 5⟩], 2⟩

/-- Claim C9 counterexample: with a single entry stored under
`"a:b:c"` and nothing under `"a:b"`, the rollup tree for the ancestor
`"a"` is empty — no entries at its root and no children — because
`buildNode` only descends through identities that hold entries
(changelog.ts lines 288-290); the `"a:b:c"` entry is therefore not
visible to the rollup query for ancestor `"a"`, contradicting the claim. -/
theorem rollup_skips_orphan_level_counterexample :
    store1.rows ≠ []
    ∧ ("a".toList).isPrefixOf ("a:b:c".toList) = true
    ∧ (rollup store1 ("a".toList)).entries = []
    ∧ (rollup store1 ("a".toList)).children = [] := by
  refine ⟨by decide, by decide, ?_, ?_⟩
  · rw [rollup, buildNode]
    show lookupGroup (groupByIdentity (listByPrefix store1 ("a".toList) 1000))
      ("a".toList) = []
    decide
  · rw [rollup, buildNode]
    have hck : childKeys (groupByIdentity (listByPrefix store1 (['a']) 1000))
        (['a']) = [] := by decide
    simp [RollupEntry.children, hck]

/-- Claim C9 (amended): for an entry recorded under a three-segment
identity `a:b:c`, the computed ancestor list is exactly `[a:b, a]` in
that order and `add` stores exactly one row (none for the ancestors);
the entry is visible to `listTree` queries for both ancestors (within
the result limits).  In the rollup tree the entry is visible for the
direct ancestor `a:b` (as a child node one level down); it is *not* in
general visible in the rollup tree of higher ancestors — see the
counterexample, where `rollup("a")` misses it because no entry exists at
level `a:b`. -/
theorem ancestors_and_visibility
    (a b c : List Char) (ha : a ≠ []) (hca : ':' ∉ a) (hcb : ':' ∉ b) (hcc : ':' ∉ c)
    (store : ChangelogStore) (opts : AddOptions) (now : Nat) (limit1 limit2 : Nat)
    (hid : opts.identity = (a ++ ':' :: b) ++ ':' :: c)
    (hl1 : ((addEntry store opts now).2.rows.filter
        (fun r => likePrefixMatch (a ++ ':' :: b) r.identity)).length ≤ limit1)
    (hl2 : ((addEntry store opts now).2.rows.filter
        (fun r => likePrefixMatch a r.identity)).length ≤ limit2)
    (hl3 : ((addEntry store opts now).2.rows.filter
        (fun r => likePrefixMatch (a ++ ':' :: b) r.identity)).length ≤ 1000) :
    getAncestors ((a ++ ':' :: b) ++ ':' :: c) = [a ++ ':' :: b, a]
    ∧ (addEntry store opts now).1.ancestors = [a ++ ':' :: b, a]
    ∧ (addEntry store opts now).2.rows = store.rows ++ [addedRow store opts now]
    ∧ addedRow store opts now ∈
        (listTree (addEntry store opts now).2 (a ++ ':' :: b) limit1).entries
    ∧ addedRow store opts now ∈
        (listTree (addEntry store opts now).2 a limit2).entries
    ∧ ∃ child ∈ (rollup (addEntry store opts now).2 (a ++ ':' :: b)).children,
        addedRow store opts now ∈ child.entries := by
  have hanc : getAncestors ((a ++ ':' :: b) ++ ':' :: c) = [a ++ ':' :: b, a] :=
    getAncestors_three a b c ha hca hcb hcc
  have hrowid : (addedRow store opts now).identity = (a ++ ':' :: b) ++ ':' :: c := hid
  have hrows : (addEntry store opts now).2.rows = store.rows ++ [addedRow store opts now] :=
    rfl
  have hmemrows : addedRow store opts now ∈ (addEntry store opts now).2.rows := by
    rw [hrows]
    exact List.mem_append_right _ (List.mem_singleton.mpr rfl)
  have hpre1 : (a ++ ':' :: b).isPrefixOf ((addedRow store opts now).identity) = true := by
    rw [hrowid]
    exact List.isPrefixOf_iff_prefix.mpr ⟨':' :: c, rfl⟩
  have hpre2 : a.isPrefixOf ((addedRow store opts now).identity) = true := by
    rw [hrowid]
    exact List.isPrefixOf_iff_prefix.mpr ⟨':' :: b ++ ':' :: c, by simp⟩
  refine ⟨hanc, by rw [show (addEntry store opts now).1.ancestors =
      getAncestors opts.identity from rfl, hid]; exact hanc, hrows, ?_, ?_, ?_⟩
  · exact mem_listByPrefix hmemrows (likePrefixMatch_of_isPrefixOf hpre1) hl1
  · exact mem_listByPrefix hmemrows (likePrefixMatch_of_isPrefixOf hpre2) hl2
  · -- rollup visibility at the direct ancestor
    have hmemes : addedRow store opts now ∈
        listByPrefix (addEntry store opts now).2 (a ++ ':' :: b) 1000 :=
      mem_listByPrefix hmemrows (likePrefixMatch_of_isPrefixOf hpre1) hl3
    have hgrp : addedRow store opts now ∈
        lookupGroup (groupByIdentity
          (listByPrefix (addEntry store opts now).2 (a ++ ':' :: b) 1000))
          ((addedRow store opts now).identity) :=
      mem_lookupGroup_groupByIdentity _ _ _ hmemes
    have hkey : (addedRow store opts now).identity ∈
        (groupByIdentity
          (listByPrefix (addEntry store opts now).2 (a ++ ':' :: b) 1000)).map Prod.fst :=
      lookupGroup_key_mem hgrp
    have hdepth : getDepth ((addedRow store opts now).identity) =
        getDepth (a ++ ':' :: b) + 1 := by
      rw [hrowid]
      unfold getDepth
      rw [List.count_append]
      have hc0 : (':' :: c).count ':' = 1 := by
        rw [List.count_cons]
        rw [List.count_eq_zero.mpr hcc]
        simp
      rw [hc0]
    have hchild : (addedRow store opts now).identity ∈
        childKeys (groupByIdentity
          (listByPrefix (addEntry store opts now).2 (a ++ ':' :: b) 1000))
          (a ++ ':' :: b) := by
      apply List.mem_filter.mpr
      refine ⟨hkey, ?_⟩
      apply (Bool.and_eq_true _ _).mpr
      constructor
      · rw [hrowid]
        apply List.isPrefixOf_iff_prefix.mpr
        refine ⟨c, ?_⟩
        simp
      · simp [hdepth]
    refine ⟨buildNode (groupByIdentity
        (listByPrefix (addEntry store opts now).2 (a ++ ':' :: b) 1000))
        ((addedRow store opts now).identity), ?_, ?_⟩
    · show _ ∈ (rollup (addEntry store opts now).2 (a ++ ':' :: b)).children
      rw [rollup, buildNode]
      show _ ∈ (childKeys _ _).attach.map _
      exact List.mem_map.mpr ⟨⟨(addedRow store opts now).identity, hchild⟩,
        List.mem_attach _ _, rfl⟩
    · rw [buildNode]
      exact hgrp

/-- Claim C9 witness: adding an entry under the concrete identity
`"a:b:c"` to an empty store reports ancestors `["a:b", "a"]`, and the
entry is visible to `listTree("a")`. -/
theorem ancestors_and_visibility_witness :
    (addEntry ⟨[], 1⟩ ⟨"a:b:c".toList, "s", none, none, none, none, none⟩ 5).1.ancestors =
      ["a:b".toList, "a".toList]
    ∧ addedRow ⟨[], 1⟩ ⟨"a:b:c".toList, "s", none, none, none, none, none⟩ 5 ∈
      (listTree (addEntry ⟨[], 1⟩ ⟨"a:b:c".toList, "s", none, none, none, none, none⟩ 5).2
        ("a".toList) 100).entries := by
  have h := ancestors_and_visibility ("a".toList) ("b".toList) ("c".toList)
    (by decide) (by decide) (by decide) (by decide) ⟨[], 1⟩
    ⟨"a:b:c".toList, "s", none, none, none, none, none⟩ 5 100 100 (by decide)
    (by decide) (by decide) (by decide)
  constructor
  · rw [h.2.1]
    decide
  · exact h.2.2.2.2.1

end Changelog

